import Mathlib

/-!
Shallow embedding of the OFAC_Automation repository (src/main.py,
src/scraping/ofac_scraper.py, src/database/db_manager.py,
src/config/settings.py) and proofs about the claims of its
specification.

External effects (the Selenium driver, the PostgreSQL connection) are
modelled as oracles: a value describing how the external collaborator
behaves on each call. Each Python function is translated into a pure
Lean function over these oracles that returns the sequence of
externally visible events it performs, together with the information
whether it raised an exception that escapes to its caller.
-/

/-! ## Data model (src/database/db_manager.py, src/config/settings.py) -/

/-- Process constants of src/config/settings.py. -/
def STATUS_OK : String := "OK"

/-- Status string persisted on a failed search (settings.STATUS_ERROR). -/
def STATUS_ERROR : String := "NOK"

/-- Status string persisted for an incomplete record. -/
def STATUS_INCOMPLETE : String := "Información incompleta"

/-- Status string persisted for a record without master link. -/
def STATUS_NO_MASTER_RECORD : String := "No cruza con maestra"

/-- Row returned by DatabaseManager.fetch_persons_to_process: person
columns left-joined to the master detail columns. A missing master row
makes idMaestra, direccion and pais all none; a present master row may
still carry an empty or missing direccion or pais. -/
structure Person where
  idPersona : Nat
  nombrePersona : String
  idMaestra : Option Nat
  direccion : Option String
  pais : Option String
deriving DecidableEq, Repr

/-- Row of the results table, as inserted by
DatabaseManager.insert_results_bulk and insert_single_result. -/
structure ResultRow where
  idPersona : Nat
  nombrePersona : String
  pais : Option String
  cantidadDeResultados : Option Int
  estadoTransaccion : String
deriving DecidableEq, Repr

/-- Truthiness of an optional string under Python: None and the empty
string are falsy, every other string is truthy. Models the tests
`not person["direccion"]` and `not person["pais"]` in categorize_persons. -/
def falsy : Option String → Bool
  | none => true
  | some s => s.isEmpty

/-! ## Oracles for the external collaborators -/

/-- Exceptions caught by OfacScraper.search_person: the first except
clause catches TimeoutException and NoSuchElementException, the second
catches every other Exception. -/
inductive SearchExn where
  | timeoutOrNotFound
  | unexpected
deriving DecidableEq, Repr

/-- Behaviour of the OFAC page for one search: either some interaction
step raises, or the wait succeeds and the results element carries the
given text. -/
inductive SearchBehavior where
  | interactionError (e : SearchExn)
  | results (text : String)
deriving DecidableEq, Repr

/-- Behaviour of one DatabaseManager.insert_single_result call.
The execute and commit are wrapped in try/except; the except handler
calls conn.rollback() outside any try, so a rollback failure escapes
to the caller. ok: execute and commit succeed, the row is committed.
failSwallowed: execute or commit fails, rollback succeeds, the
exception is logged and swallowed, no row is committed. raises: execute
or commit fails and the rollback raises too, so the call raises. -/
inductive InsBehavior where
  | ok
  | failSwallowed
  | raises
deriving DecidableEq, Repr

/-- Externally visible events of a run, in program order. -/
inductive Event where
  | searchCall (pid : Nat)
  | insertCall (row : ResultRow) (outcome : InsBehavior)
  | bulkWrite (rows : List ResultRow) (committed : Bool)
  | screenshot (pid : Nat)
  | resetForm
  | openScraper
  | scraperInitFailed
  | closeDriver
  | reportPhase
  | disconnect
deriving DecidableEq, Repr

/-! ## OfacScraper (src/scraping/ofac_scraper.py) -/

/-- Numeric value of a run of decimal digit characters, as computed by
the Python int() constructor on the matched group. -/
def digit_run_value (cs : List Char) : Nat :=
  cs.foldl (fun acc c => acc * 10 + (c.toNat - 48)) 0

/-- OfacScraper._parse_results: re.search finds the first maximal run
of decimal digits in the result text; if one exists its integer value
is returned, otherwise a warning is logged and 0 is returned. -/
def parse_results (result_text : String) : Int :=
  let digits := (result_text.data.dropWhile (fun c => !c.isDigit)).takeWhile (fun c => c.isDigit)
  if digits.isEmpty then 0 else Int.ofNat (digit_run_value digits)

/-- Body of OfacScraper.search_person inside its try block: drive the
page, and on success parse the results text. The outcome of the page
interaction is the oracle b. -/
def search_person_body (b : SearchBehavior) : Except SearchExn Int :=
  match b with
  | SearchBehavior.interactionError e => Except.error e
  | SearchBehavior.results t => Except.ok (parse_results t)

/-- OfacScraper.search_person: both except clauses log and return -1,
so every raised interaction failure maps to the sentinel -1 and a
successful wait returns the parsed count. The name, address and
country arguments are sent to the form and do not influence the
returned value beyond the behaviour oracle b. -/
def search_person (b : SearchBehavior) (name address country : String) : Int :=
  match search_person_body b with
  | Except.ok n => n
  | Except.error _ => -1

/-- Behaviour of one driver primitive used by take_screenshot or
reset_search_form: the underlying Selenium call either works or raises. -/
inductive OpResult where
  | success
  | failure
deriving DecidableEq, Repr

/-- Body of OfacScraper.take_screenshot inside its try block: scroll,
build the filename and save the screenshot; any driver failure raises. -/
def screenshot_body (o : OpResult) (pid : Nat) : Except String (List Event) :=
  match o with
  | OpResult.success => Except.ok [Event.screenshot pid]
  | OpResult.failure => Except.error "driver failure"

/-- OfacScraper.take_screenshot: the whole body is wrapped in
try/except Exception; the handler only logs, so the call always
returns normally. -/
def take_screenshot (o : OpResult) (pid : Nat) : Except String (List Event) :=
  match screenshot_body o pid with
  | Except.ok evs => Except.ok evs
  | Except.error _ => Except.ok []

/-- Body of OfacScraper.reset_search_form inside its try block: click
the reset control; a driver failure raises. -/
def reset_body (o : OpResult) : Except String (List Event) :=
  match o with
  | OpResult.success => Except.ok [Event.resetForm]
  | OpResult.failure => Except.error "driver failure"

/-- OfacScraper.reset_search_form: the body is wrapped in try/except
Exception; the handler only logs, so the call always returns normally. -/
def reset_search_form (o : OpResult) : Except String (List Event) :=
  match reset_body o with
  | Except.ok evs => Except.ok evs
  | Except.error _ => Except.ok []

/-- OfacScraper.close: the whole body is the truthiness test of the
driver attribute guarding one quit call; there is no try/except, so a
raising quit propagates to the caller, and close never assigns
self.driver, so the attribute keeps its value across calls. The first
argument is the truthiness of self.driver, the second the behaviour of
the guarded quit call. run_ofac_searches records the invocation of
close as Event.closeDriver; this function describes what one
invocation of close does internally. -/
def close (driverTruthy : Bool) (o : OpResult) : Except String (List Event) :=
  if driverTruthy then
    match o with
    | OpResult.success => Except.ok [Event.closeDriver]
    | OpResult.failure => Except.error "driver failure"
  else Except.ok []

/-- Two successive close calls on the same scraper instance: since
close never assigns self.driver, the second call evaluates the same
truthiness test as the first instead of seeing a cleared attribute. -/
def close_close (driverTruthy : Bool) (o1 o2 : OpResult) : Except String (List Event) :=
  match close driverTruthy o1 with
  | Except.error e => Except.error e
  | Except.ok evs1 =>
      match close driverTruthy o2 with
      | Except.error e => Except.error e
      | Except.ok evs2 => Except.ok (evs1 ++ evs2)

/-! ## DatabaseManager (src/database/db_manager.py) -/

/-- DatabaseManager.fetch_persons_to_process: execute the select; on
any exception the error is logged and the empty list is returned. The
oracle is none when the query raises and some rows when it succeeds. -/
def fetch_persons_to_process : Option (List Person) → List Person
  | some rows => rows
  | none => []

/-- DatabaseManager.insert_results_bulk: an empty batch returns at
once; otherwise one execute_values call writes all rows, committed
when the transaction succeeds and rolled back (logged, swallowed)
otherwise. -/
def insert_results_bulk (bulkOk : Bool) (results_data : List ResultRow) : List Event :=
  if results_data.isEmpty then []
  else [Event.bulkWrite results_data bulkOk]

/-! ## main.py -/

/-- Body of categorize_persons: one pass over the input appending each
person to exactly one of the three lists, testing idMaestra first,
then the truthiness of direccion and pais. -/
def categorize_persons : List Person → List Person × List Person × List Person
  | [] => ([], [], [])
  | person :: rest =>
      let prev := categorize_persons rest
      if person.idMaestra.isNone then (prev.1, prev.2.1, person :: prev.2.2)
      else if falsy person.direccion || falsy person.pais then (prev.1, person :: prev.2.1, prev.2.2)
      else (person :: prev.1, prev.2.1, prev.2.2)

/-- Batch built by process_pre_checks: one row per incomplete person
(with the person country and status STATUS_INCOMPLETE) followed by one
row per person without master link (null country, status
STATUS_NO_MASTER_RECORD); every row has a null result count. -/
def pre_check_rows (incomplete no_master : List Person) : List ResultRow :=
  incomplete.map (fun p => ⟨p.idPersona, p.nombrePersona, p.pais, none, STATUS_INCOMPLETE⟩)
    ++ no_master.map (fun p => ⟨p.idPersona, p.nombrePersona, none, none, STATUS_NO_MASTER_RECORD⟩)

/-- process_pre_checks of src/main.py: build the batch and, when it is
not empty, hand it to insert_results_bulk. -/
def process_pre_checks (bulkOk : Bool) (incomplete no_master : List Person) : List Event :=
  let bulk_data := pre_check_rows incomplete no_master
  if bulk_data.isEmpty then []
  else insert_results_bulk bulkOk bulk_data

/-- Count returned by the search_person call of one loop iteration of
run_ofac_searches, with the arguments the loop passes. -/
def countOf (env : Person → SearchBehavior) (p : Person) : Int :=
  search_person (env p) p.nombrePersona (p.direccion.getD "") (p.pais.getD "")

/-- Row handed to insert_single_result by one loop iteration: the OK
row with the count when the count is above -1, the ERROR row with null
count otherwise. -/
def rowOf (env : Person → SearchBehavior) (p : Person) : ResultRow :=
  if countOf env p > -1 then
    ⟨p.idPersona, p.nombrePersona, p.pais, some (countOf env p), STATUS_OK⟩
  else ⟨p.idPersona, p.nombrePersona, p.pais, none, STATUS_ERROR⟩

/-- One iteration of the loop in run_ofac_searches: search, then
insert the row of rowOf, then screenshot on a strictly positive count,
then reset the form. When the insert raises, the iteration stops there
and the exception escapes (there is no try/finally in
run_ofac_searches); the Boolean of the pair records that escape. -/
def loop_body (env : Person → SearchBehavior) (ib : InsBehavior) (p : Person) :
    List Event × Bool :=
  match ib with
  | InsBehavior.raises =>
      ([Event.searchCall p.idPersona, Event.insertCall (rowOf env p) InsBehavior.raises], true)
  | ib =>
      ([Event.searchCall p.idPersona, Event.insertCall (rowOf env p) ib]
        ++ (if countOf env p > 0 then [Event.screenshot p.idPersona] else [])
        ++ [Event.resetForm], false)

/-- Loop of run_ofac_searches over the searchable queue: iterations
run in input order; an escaping exception aborts the remaining
iterations and propagates. -/
def search_loop (env : Person → SearchBehavior) (ins : Person → InsBehavior) :
    List Person → List Event × Bool
  | [] => ([], false)
  | p :: rest =>
      let step := loop_body env (ins p) p
      if step.2 then (step.1, true)
      else
        let tail := search_loop env ins rest
        (step.1 ++ tail.1, tail.2)

/-- run_ofac_searches of src/main.py: an empty queue returns before
the scraper is constructed; a failed scraper construction is caught,
logged and the function returns; otherwise the loop runs and, when no
iteration raised, the scraper is closed after the loop. The Boolean of
the pair records an exception escaping to main. -/
def run_ofac_searches (scraperOk : Bool) (env : Person → SearchBehavior)
    (ins : Person → InsBehavior) (search_queue : List Person) : List Event × Bool :=
  if search_queue.isEmpty then ([], false)
  else if !scraperOk then ([Event.scraperInitFailed], false)
  else
    let res := search_loop env ins search_queue
    if res.2 then (Event.openScraper :: res.1, true)
    else (Event.openScraper :: res.1 ++ [Event.closeDriver], false)

/-- Rows committed to the results table by a trace: the rows of a
committed bulk write and the row of each single insert whose execute,
commit and (when needed) rollback behaved as a successful insert. -/
def row_contrib : Event → List ResultRow
  | Event.insertCall row InsBehavior.ok => [row]
  | Event.bulkWrite rows true => rows
  | _ => []

/-- Rows committed over a whole trace, in trace order. -/
def persisted_rows (evs : List Event) : List ResultRow :=
  evs.flatMap row_contrib

/-- main of src/main.py: fetch the queue (a failed query yields the
empty list), return at once when it is empty, otherwise categorize,
persist the pre-checks, run the searches and generate the report; a
critical exception from the search phase is caught at main and skips
the report; the finally clause always disconnects. -/
def main_run (fetch : Option (List Person)) (scraperOk bulkOk : Bool)
    (env : Person → SearchBehavior) (ins : Person → InsBehavior) : List Event :=
  if (fetch_persons_to_process fetch).isEmpty then [Event.disconnect]
  else
    process_pre_checks bulkOk (categorize_persons (fetch_persons_to_process fetch)).2.1
        (categorize_persons (fetch_persons_to_process fetch)).2.2
      ++ (run_ofac_searches scraperOk env ins
            (categorize_persons (fetch_persons_to_process fetch)).1).1
      ++ (if (run_ofac_searches scraperOk env ins
            (categorize_persons (fetch_persons_to_process fetch)).1).2
          then [Event.disconnect]
          else [Event.reportPhase, Event.disconnect])

/-- Row that a full, failure-free run persists for one fetched person:
the classification of categorize_persons followed, for searchable
persons, by the outcome mapping of run_ofac_searches. -/
def expected_row (env : Person → SearchBehavior) (p : Person) : ResultRow :=
  if p.idMaestra.isNone then
    ⟨p.idPersona, p.nombrePersona, none, none, STATUS_NO_MASTER_RECORD⟩
  else if falsy p.direccion || falsy p.pais then
    ⟨p.idPersona, p.nombrePersona, p.pais, none, STATUS_INCOMPLETE⟩
  else rowOf env p

/-- Per-record event block of a loop iteration whose insert returns
normally without committing failure escalation, as used to describe
failure-free runs. -/
def okBlock (env : Person → SearchBehavior) (p : Person) : List Event :=
  (loop_body env InsBehavior.ok p).1

/-- Category assigned to one person by the precedence of the
classifier: the master link is tested first, then the completeness of
direccion and pais. -/
inductive Cat where
  | searchable
  | incomplete
  | nomaster
deriving DecidableEq, Repr

/-- Classification of a single person, with the precedence of the
branch cascade in categorize_persons. -/
def classify (p : Person) : Cat :=
  if p.idMaestra.isNone then Cat.nomaster
  else if falsy p.direccion || falsy p.pais then Cat.incomplete
  else Cat.searchable

/-! ## Helper lemmas -/

theorem classify_of_nomaster {p : Person} (h : p.idMaestra.isNone = true) :
    classify p = Cat.nomaster := by
  unfold classify
  rw [if_pos h]

theorem classify_of_incomplete {p : Person} (h1 : p.idMaestra.isNone = false)
    (h2 : (falsy p.direccion || falsy p.pais) = true) :
    classify p = Cat.incomplete := by
  unfold classify
  rw [if_neg (by simp [h1]), if_pos h2]

theorem classify_of_searchable {p : Person} (h1 : p.idMaestra.isNone = false)
    (h2 : (falsy p.direccion || falsy p.pais) = false) :
    classify p = Cat.searchable := by
  unfold classify
  rw [if_neg (by simp [h1]), if_neg (by simp [h2])]

theorem categorize_cons_nomaster {q : Person} {rest : List Person}
    (h : q.idMaestra.isNone = true) :
    categorize_persons (q :: rest) =
      ((categorize_persons rest).1, (categorize_persons rest).2.1,
        q :: (categorize_persons rest).2.2) := by
  simp only [categorize_persons]
  rw [if_pos h]

theorem categorize_cons_incomplete {q : Person} {rest : List Person}
    (h1 : q.idMaestra.isNone = false)
    (h2 : (falsy q.direccion || falsy q.pais) = true) :
    categorize_persons (q :: rest) =
      ((categorize_persons rest).1, q :: (categorize_persons rest).2.1,
        (categorize_persons rest).2.2) := by
  simp only [categorize_persons]
  rw [if_neg (by simp [h1]), if_pos h2]

theorem categorize_cons_searchable {q : Person} {rest : List Person}
    (h1 : q.idMaestra.isNone = false)
    (h2 : (falsy q.direccion || falsy q.pais) = false) :
    categorize_persons (q :: rest) =
      (q :: (categorize_persons rest).1, (categorize_persons rest).2.1,
        (categorize_persons rest).2.2) := by
  simp only [categorize_persons]
  rw [if_neg (by simp [h1]), if_neg (by simp [h2])]

theorem categorize_eq_filter (ps : List Person) :
    categorize_persons ps =
      (ps.filter (fun p => classify p == Cat.searchable),
       ps.filter (fun p => classify p == Cat.incomplete),
       ps.filter (fun p => classify p == Cat.nomaster)) := by
  induction ps with
  | nil => rfl
  | cons q rest ih =>
      cases h1 : q.idMaestra.isNone with
      | true =>
          rw [categorize_cons_nomaster h1, ih]
          simp [List.filter_cons, classify_of_nomaster h1]
      | false =>
          cases h2 : (falsy q.direccion || falsy q.pais) with
          | true =>
              rw [categorize_cons_incomplete h1 h2, ih]
              simp [List.filter_cons, classify_of_incomplete h1 h2]
          | false =>
              rw [categorize_cons_searchable h1 h2, ih]
              simp [List.filter_cons, classify_of_searchable h1 h2]

theorem categorize_append_perm (ps : List Person) :
    List.Perm ((categorize_persons ps).1 ++ (categorize_persons ps).2.1
      ++ (categorize_persons ps).2.2) ps := by
  induction ps with
  | nil => simp [categorize_persons]
  | cons q rest ih =>
      cases h1 : q.idMaestra.isNone with
      | true =>
          rw [categorize_cons_nomaster h1]
          exact List.perm_middle.trans (ih.cons q)
      | false =>
          cases h2 : (falsy q.direccion || falsy q.pais) with
          | true =>
              rw [categorize_cons_incomplete h1 h2]
              dsimp only
              rw [List.append_assoc, List.cons_append]
              refine List.Perm.trans List.perm_middle (List.Perm.cons q ?_)
              rw [← List.append_assoc]
              exact ih
          | false =>
              rw [categorize_cons_searchable h1 h2]
              simpa using ih.cons q

theorem classify_searchable_iff (p : Person) :
    classify p = Cat.searchable ↔
      p.idMaestra ≠ none ∧ falsy p.direccion = false ∧ falsy p.pais = false := by
  cases h1 : p.idMaestra.isNone with
  | true =>
      rw [classify_of_nomaster h1]
      simp [Option.isNone_iff_eq_none.mp h1]
  | false =>
      have hne : p.idMaestra ≠ none := by
        intro hx
        rw [hx] at h1
        cases h1
      cases hd : falsy p.direccion with
      | true =>
          rw [classify_of_incomplete h1 (by simp [hd])]
          simp [hd]
      | false =>
          cases hp : falsy p.pais with
          | true =>
              rw [classify_of_incomplete h1 (by simp [hd, hp])]
              simp [hp]
          | false =>
              rw [classify_of_searchable h1 (by simp [hd, hp])]
              simp [hne, hd, hp]

theorem classify_incomplete_iff (p : Person) :
    classify p = Cat.incomplete ↔
      p.idMaestra ≠ none ∧ (falsy p.direccion = true ∨ falsy p.pais = true) := by
  cases h1 : p.idMaestra.isNone with
  | true =>
      rw [classify_of_nomaster h1]
      simp [Option.isNone_iff_eq_none.mp h1]
  | false =>
      have hne : p.idMaestra ≠ none := by
        intro hx
        rw [hx] at h1
        cases h1
      cases hd : falsy p.direccion with
      | true =>
          rw [classify_of_incomplete h1 (by simp [hd])]
          simp [hne, hd]
      | false =>
          cases hp : falsy p.pais with
          | true =>
              rw [classify_of_incomplete h1 (by simp [hd, hp])]
              simp [hne, hp]
          | false =>
              rw [classify_of_searchable h1 (by simp [hd, hp])]
              simp [hd, hp]

theorem classify_nomaster_iff (p : Person) :
    classify p = Cat.nomaster ↔ p.idMaestra = none := by
  cases h1 : p.idMaestra.isNone with
  | true =>
      rw [classify_of_nomaster h1]
      simp [Option.isNone_iff_eq_none.mp h1]
  | false =>
      have hne : p.idMaestra ≠ none := by
        intro hx
        rw [hx] at h1
        cases h1
      cases h2 : (falsy p.direccion || falsy p.pais) with
      | true =>
          rw [classify_of_incomplete h1 h2]
          simp [hne]
      | false =>
          rw [classify_of_searchable h1 h2]
          simp [hne]

theorem dropWhile_append_all {p : Char → Bool} {l₁ l₂ : List Char}
    (h : ∀ ch ∈ l₁, p ch = true) :
    (l₁ ++ l₂).dropWhile p = l₂.dropWhile p := by
  induction l₁ with
  | nil => rfl
  | cons a t ih =>
      have ha : p a = true := h a (by simp)
      simp only [List.cons_append, List.dropWhile_cons, ha, if_true]
      exact ih (fun ch hc => h ch (by simp [hc]))

theorem takeWhile_append_all {p : Char → Bool} {l₁ l₂ : List Char}
    (h : ∀ ch ∈ l₁, p ch = true) :
    (l₁ ++ l₂).takeWhile p = l₁ ++ l₂.takeWhile p := by
  induction l₁ with
  | nil => rfl
  | cons a t ih =>
      have ha : p a = true := h a (by simp)
      simp only [List.cons_append, List.takeWhile_cons, ha, if_true]
      exact congrArg (a :: ·) (ih (fun ch hc => h ch (by simp [hc])))

theorem parse_results_nonneg (t : String) : 0 ≤ parse_results t := by
  unfold parse_results
  dsimp only
  split
  · exact le_refl 0
  · exact Int.ofNat_nonneg _

theorem parse_results_no_digits (t : String)
    (h : ∀ ch ∈ t.data, ch.isDigit = false) : parse_results t = 0 := by
  unfold parse_results
  have hd : t.data.dropWhile (fun c => !c.isDigit) = [] :=
    List.dropWhile_eq_nil_iff.mpr (fun ch hc => by simp [h ch hc])
  simp [hd]

theorem parse_results_first_run (t : String) (pre rn post : List Char)
    (ht : t.data = pre ++ rn ++ post)
    (hpre : ∀ ch ∈ pre, ch.isDigit = false)
    (hne : rn ≠ [])
    (hrn : ∀ ch ∈ rn, ch.isDigit = true)
    (hpost : ∀ h : post ≠ [], (post.head h).isDigit = false) :
    parse_results t = Int.ofNat (digit_run_value rn) := by
  obtain ⟨r0, rs, rfl⟩ := List.exists_cons_of_ne_nil hne
  have hr0 : r0.isDigit = true := hrn r0 (by simp)
  have hdw : t.data.dropWhile (fun c => !c.isDigit) = r0 :: (rs ++ post) := by
    rw [ht, List.append_assoc,
      dropWhile_append_all (fun ch hc => by simp [hpre ch hc]),
      List.cons_append, List.dropWhile_cons, if_neg (by simp [hr0])]
  have hpt : post.takeWhile (fun c => c.isDigit) = [] := by
    cases post with
    | nil => rfl
    | cons q qs =>
        have : q.isDigit = false := hpost (by simp)
        simp [List.takeWhile_cons, this]
  have htw : (t.data.dropWhile (fun c => !c.isDigit)).takeWhile (fun c => c.isDigit)
      = r0 :: rs := by
    rw [hdw, ← List.cons_append,
      takeWhile_append_all (fun ch hc => by simp [hrn ch hc]), hpt, List.append_nil]
  unfold parse_results
  dsimp only
  rw [htw]
  simp

theorem search_person_neg_or_nonneg (b : SearchBehavior) (n a c : String) :
    search_person b n a c = -1 ∨ 0 ≤ search_person b n a c := by
  cases b with
  | interactionError e => exact Or.inl rfl
  | results t => exact Or.inr (parse_results_nonneg t)

theorem countOf_neg_or_nonneg (env : Person → SearchBehavior) (p : Person) :
    countOf env p = -1 ∨ 0 ≤ countOf env p :=
  search_person_neg_or_nonneg (env p) p.nombrePersona (p.direccion.getD "") (p.pais.getD "")

theorem rowOf_of_error {env : Person → SearchBehavior} {p : Person}
    (h : countOf env p = -1) :
    rowOf env p = ⟨p.idPersona, p.nombrePersona, p.pais, none, STATUS_ERROR⟩ := by
  unfold rowOf
  rw [if_neg (by rw [h]; omega)]

theorem rowOf_of_count {env : Person → SearchBehavior} {p : Person}
    (h : 0 ≤ countOf env p) :
    rowOf env p = ⟨p.idPersona, p.nombrePersona, p.pais, some (countOf env p), STATUS_OK⟩ := by
  unfold rowOf
  rw [if_pos (by omega)]

theorem loop_body_not_raise (env : Person → SearchBehavior) {ib : InsBehavior}
    (hib : ib ≠ InsBehavior.raises) (p : Person) :
    loop_body env ib p
      = ([Event.searchCall p.idPersona, Event.insertCall (rowOf env p) ib]
          ++ (if countOf env p > 0 then [Event.screenshot p.idPersona] else [])
          ++ [Event.resetForm], false) := by
  cases ib with
  | ok => rfl
  | failSwallowed => rfl
  | raises => exact absurd rfl hib

theorem search_loop_no_raise (env : Person → SearchBehavior) (ins : Person → InsBehavior)
    (q : List Person) (h : ∀ p ∈ q, ins p ≠ InsBehavior.raises) :
    search_loop env ins q
      = (q.flatMap (fun p => (loop_body env (ins p) p).1), false) := by
  induction q with
  | nil => rfl
  | cons p rest ih =>
      have hp : (loop_body env (ins p) p).2 = false := by
        rw [loop_body_not_raise env (h p (by simp)) p]
      have ht := ih (fun x hx => h x (by simp [hx]))
      simp [search_loop, hp, ht, List.flatMap_cons]

theorem run_ofac_no_raise (env : Person → SearchBehavior) (ins : Person → InsBehavior)
    (q : List Person) (hq : q ≠ []) (h : ∀ p ∈ q, ins p ≠ InsBehavior.raises) :
    run_ofac_searches true env ins q
      = (Event.openScraper
          :: (q.flatMap (fun p => (loop_body env (ins p) p).1) ++ [Event.closeDriver]),
         false) := by
  obtain ⟨a, t, rfl⟩ := List.exists_cons_of_ne_nil hq
  unfold run_ofac_searches
  rw [search_loop_no_raise env ins _ h]
  simp

theorem flatMap_okBlock_of_ok (env : Person → SearchBehavior) (ins : Person → InsBehavior)
    (q : List Person) (h : ∀ p ∈ q, ins p = InsBehavior.ok) :
    q.flatMap (fun p => (loop_body env (ins p) p).1) = q.flatMap (okBlock env) := by
  induction q with
  | nil => rfl
  | cons p rest ih =>
      simp only [List.flatMap_cons]
      rw [h p (by simp), ih (fun x hx => h x (by simp [hx]))]
      rfl

theorem loop_body_no_close (env : Person → SearchBehavior) (ib : InsBehavior) (p : Person) :
    Event.closeDriver ∉ (loop_body env ib p).1 := by
  have h0 : Event.closeDriver
      ∉ (if countOf env p > 0 then [Event.screenshot p.idPersona] else ([] : List Event)) := by
    split <;> simp
  cases ib <;> simp [loop_body, h0]

theorem flatMap_blocks_no_close (env : Person → SearchBehavior) (ins : Person → InsBehavior)
    (q : List Person) :
    Event.closeDriver ∉ q.flatMap (fun p => (loop_body env (ins p) p).1) := by
  intro hmem
  rw [List.mem_flatMap] at hmem
  obtain ⟨p, hp, hin⟩ := hmem
  exact loop_body_no_close env (ins p) p hin

theorem loop_body_count_reset (env : Person → SearchBehavior) {ib : InsBehavior}
    (hib : ib ≠ InsBehavior.raises) (p : Person) :
    ((loop_body env ib p).1.count Event.resetForm) = 1 := by
  rw [loop_body_not_raise env hib p]
  by_cases hr : countOf env p > 0
  · simp [hr, List.count_append, List.count_cons]
  · simp [hr, List.count_append, List.count_cons]

theorem flatMap_blocks_count_reset (env : Person → SearchBehavior)
    (ins : Person → InsBehavior) (q : List Person)
    (h : ∀ p ∈ q, ins p ≠ InsBehavior.raises) :
    ((q.flatMap (fun p => (loop_body env (ins p) p).1)).count Event.resetForm) = q.length := by
  induction q with
  | nil => rfl
  | cons p rest ih =>
      simp only [List.flatMap_cons, List.count_append, List.length_cons]
      rw [loop_body_count_reset env (h p (by simp)) p,
        ih (fun x hx => h x (by simp [hx]))]
      omega

theorem persisted_rows_append (a b : List Event) :
    persisted_rows (a ++ b) = persisted_rows a ++ persisted_rows b :=
  List.flatMap_append a b row_contrib

theorem persisted_pre_checks (inc nm : List Person) :
    persisted_rows (process_pre_checks true inc nm) = pre_check_rows inc nm := by
  unfold process_pre_checks insert_results_bulk
  by_cases hb : (pre_check_rows inc nm).isEmpty
  · rw [if_pos hb, List.isEmpty_iff.mp hb]
    rfl
  · rw [if_neg hb, if_neg hb]
    simp [persisted_rows, row_contrib]

theorem persisted_rows_cons (e : Event) (l : List Event) :
    persisted_rows (e :: l) = row_contrib e ++ persisted_rows l :=
  List.flatMap_cons ..

theorem persisted_okBlock (env : Person → SearchBehavior) (p : Person) :
    persisted_rows (okBlock env p) = [rowOf env p] := by
  unfold okBlock
  rw [loop_body_not_raise env (by simp) p]
  by_cases hr : countOf env p > 0 <;> simp [hr, persisted_rows, row_contrib]

theorem persisted_flatMap_okBlocks (env : Person → SearchBehavior) (q : List Person) :
    persisted_rows (q.flatMap (okBlock env)) = q.map (rowOf env) := by
  induction q with
  | nil => rfl
  | cons p rest ih =>
      rw [List.flatMap_cons, persisted_rows_append, persisted_okBlock, ih]
      rfl

theorem mem_categorize_searchable {rows : List Person} {p : Person}
    (hp : p ∈ (categorize_persons rows).1) : classify p = Cat.searchable := by
  rw [categorize_eq_filter] at hp
  simp [List.mem_filter] at hp
  exact hp.2

theorem mem_categorize_incomplete {rows : List Person} {p : Person}
    (hp : p ∈ (categorize_persons rows).2.1) : classify p = Cat.incomplete := by
  rw [categorize_eq_filter] at hp
  simp [List.mem_filter] at hp
  exact hp.2

theorem mem_categorize_nomaster {rows : List Person} {p : Person}
    (hp : p ∈ (categorize_persons rows).2.2) : classify p = Cat.nomaster := by
  rw [categorize_eq_filter] at hp
  simp [List.mem_filter] at hp
  exact hp.2

theorem expected_row_of_nomaster {env : Person → SearchBehavior} {p : Person}
    (h : classify p = Cat.nomaster) :
    expected_row env p
      = ⟨p.idPersona, p.nombrePersona, none, none, STATUS_NO_MASTER_RECORD⟩ := by
  have h1 := (classify_nomaster_iff p).mp h
  unfold expected_row
  rw [if_pos (by simp [Option.isNone_iff_eq_none, h1])]

theorem expected_row_of_incomplete {env : Person → SearchBehavior} {p : Person}
    (h : classify p = Cat.incomplete) :
    expected_row env p
      = ⟨p.idPersona, p.nombrePersona, p.pais, none, STATUS_INCOMPLETE⟩ := by
  obtain ⟨h1, h2⟩ := (classify_incomplete_iff p).mp h
  unfold expected_row
  rw [if_neg (by simpa [Option.isNone_iff_eq_none] using h1),
    if_pos (by rcases h2 with hx | hx <;> simp [hx])]

theorem expected_row_of_searchable {env : Person → SearchBehavior} {p : Person}
    (h : classify p = Cat.searchable) :
    expected_row env p = rowOf env p := by
  obtain ⟨h1, hd, hp2⟩ := (classify_searchable_iff p).mp h
  unfold expected_row
  rw [if_neg (by simpa [Option.isNone_iff_eq_none] using h1),
    if_neg (by simp [hd, hp2])]

theorem expected_row_idPersona (env : Person → SearchBehavior) (p : Person) :
    (expected_row env p).idPersona = p.idPersona := by
  unfold expected_row rowOf
  split
  · rfl
  · split
    · rfl
    · split <;> rfl

theorem persisted_main_ok (rows : List Person) (env : Person → SearchBehavior)
    (ins : Person → InsBehavior) (hins : ∀ p, ins p = InsBehavior.ok)
    (hrows : rows ≠ []) :
    persisted_rows (main_run (some rows) true true env ins)
      = pre_check_rows (categorize_persons rows).2.1 (categorize_persons rows).2.2
        ++ (categorize_persons rows).1.map (rowOf env) := by
  unfold main_run
  simp only [fetch_persons_to_process]
  rw [if_neg (by simp [hrows])]
  have hemp3 : persisted_rows [Event.reportPhase, Event.disconnect] = [] := rfl
  by_cases hs : (categorize_persons rows).1 = []
  · have hrun : run_ofac_searches true env ins ([] : List Person) = ([], false) := rfl
    simp only [hs, hrun]
    simp [persisted_rows_append, persisted_pre_checks, hemp3]
  · simp only [run_ofac_no_raise env ins _ hs (fun p hp => by rw [hins p]; simp),
      flatMap_okBlock_of_ok env ins _ (fun p hp => hins p)]
    have hclose : persisted_rows [Event.closeDriver] = [] := rfl
    simp only [persisted_rows_append, persisted_rows_cons, persisted_pre_checks,
      persisted_flatMap_okBlocks, hemp3, hclose]
    simp [row_contrib, hemp3]

/-! ## Claim theorems -/

/-- C1: every invocation of search_person returns -1 exactly when the
wait times out, an element is absent or any other interaction raises,
and otherwise returns the integer parsed from the results text; a text
without decimal digits parses to 0, a text with digits parses to the
value of its first decimal digit run, every parsed count is
non-negative and the sentinel -1 is strictly below every count. -/
theorem search_person_sentinel_spec :
    ((-1 : Int) < 0)
    ∧ (∀ e n a c, search_person (SearchBehavior.interactionError e) n a c = -1)
    ∧ (∀ t n a c, search_person (SearchBehavior.results t) n a c = parse_results t)
    ∧ (∀ b n a c, search_person b n a c = -1 ∨ 0 ≤ search_person b n a c)
    ∧ (∀ t, 0 ≤ parse_results t)
    ∧ (∀ t, (∀ ch ∈ t.data, ch.isDigit = false) → parse_results t = 0)
    ∧ (∀ t pre rn post, t.data = pre ++ rn ++ post →
        (∀ ch ∈ pre, ch.isDigit = false) → rn ≠ [] →
        (∀ ch ∈ rn, ch.isDigit = true) →
        (∀ h : post ≠ [], (post.head h).isDigit = false) →
        parse_results t = Int.ofNat (digit_run_value rn)) := by
  refine ⟨by norm_num, fun e n a c => rfl, fun t n a c => rfl, ?_, parse_results_nonneg,
    parse_results_no_digits, parse_results_first_run⟩
  intro b n a c
  cases b with
  | interactionError e => exact Or.inl rfl
  | results t => exact Or.inr (parse_results_nonneg t)

/-- Witness for C1 at a concrete digit-free results text. -/
theorem search_person_sentinel_spec_witness :
    parse_results "Lookup Results: none found" = 0 :=
  search_person_sentinel_spec.2.2.2.2.2.1 "Lookup Results: none found" (by decide)

/-- C3: categorize_persons is a total function returning three
sequences that are order-preserving sublists of the input, whose
concatenation is a permutation of the input (so their union as a set
is the input set and no element is lost or duplicated); membership in
each output is characterised by the precedence no-master first, then
incomplete, then searchable, so a person without master link lands in
no-master whatever direccion and pais hold, and the three outputs are
pairwise disjoint; the empty input yields three empty sequences. -/
theorem categorize_partition (ps : List Person) :
    categorize_persons ([] : List Person) = ([], [], [])
    ∧ (categorize_persons ps).1.Sublist ps
    ∧ (categorize_persons ps).2.1.Sublist ps
    ∧ (categorize_persons ps).2.2.Sublist ps
    ∧ (∀ p, p ∈ (categorize_persons ps).2.2 ↔ p ∈ ps ∧ p.idMaestra = none)
    ∧ (∀ p, p ∈ (categorize_persons ps).2.1 ↔
        p ∈ ps ∧ p.idMaestra ≠ none ∧ (falsy p.direccion = true ∨ falsy p.pais = true))
    ∧ (∀ p, p ∈ (categorize_persons ps).1 ↔
        p ∈ ps ∧ p.idMaestra ≠ none ∧ falsy p.direccion = false ∧ falsy p.pais = false)
    ∧ (∀ p, ¬(p ∈ (categorize_persons ps).1 ∧ p ∈ (categorize_persons ps).2.1))
    ∧ (∀ p, ¬(p ∈ (categorize_persons ps).1 ∧ p ∈ (categorize_persons ps).2.2))
    ∧ (∀ p, ¬(p ∈ (categorize_persons ps).2.1 ∧ p ∈ (categorize_persons ps).2.2))
    ∧ List.Perm ((categorize_persons ps).1 ++ (categorize_persons ps).2.1
        ++ (categorize_persons ps).2.2) ps := by
  have hf := categorize_eq_filter ps
  have hmemS : ∀ p, p ∈ (categorize_persons ps).1 ↔ p ∈ ps ∧ classify p = Cat.searchable := by
    intro p
    rw [hf]
    simp [List.mem_filter]
  have hmemI : ∀ p, p ∈ (categorize_persons ps).2.1 ↔ p ∈ ps ∧ classify p = Cat.incomplete := by
    intro p
    rw [hf]
    simp [List.mem_filter]
  have hmemN : ∀ p, p ∈ (categorize_persons ps).2.2 ↔ p ∈ ps ∧ classify p = Cat.nomaster := by
    intro p
    rw [hf]
    simp [List.mem_filter]
  refine ⟨rfl, ?_, ?_, ?_, ?_, ?_, ?_, ?_, ?_, ?_, categorize_append_perm ps⟩
  · rw [hf]
    exact List.filter_sublist ps
  · rw [hf]
    exact List.filter_sublist ps
  · rw [hf]
    exact List.filter_sublist ps
  · intro p
    rw [hmemN p, classify_nomaster_iff]
  · intro p
    rw [hmemI p, classify_incomplete_iff]
  · intro p
    rw [hmemS p, classify_searchable_iff]
  · rintro p ⟨hs, hi⟩
    have h1 := (hmemS p).mp hs
    have h2 := (hmemI p).mp hi
    rw [h1.2] at h2
    cases h2.2
  · rintro p ⟨hs, hn⟩
    have h1 := (hmemS p).mp hs
    have h2 := (hmemN p).mp hn
    rw [h1.2] at h2
    cases h2.2
  · rintro p ⟨hi, hn⟩
    have h1 := (hmemI p).mp hi
    have h2 := (hmemN p).mp hn
    rw [h1.2] at h2
    cases h2.2

/-- Witness for C3 at a one-person input without master link. -/
theorem categorize_partition_witness :
    (⟨1, "Ana", none, some "Calle 9", some "Chile"⟩ : Person)
      ∈ (categorize_persons [⟨1, "Ana", none, some "Calle 9", some "Chile"⟩]).2.2 :=
  ((categorize_partition [⟨1, "Ana", none, some "Calle 9", some "Chile"⟩]).2.2.2.2.1
    ⟨1, "Ana", none, some "Calle 9", some "Chile"⟩).mpr (by decide)

/-- C2: in a run over a non-empty searchable queue in which the
scraper opens and every single-row insert behaves as a normal insert,
the trace is exactly one per-record block per queue entry in input
order; a block whose search returned the sentinel -1 persists the row
with null count and status ERROR and captures no evidence, a block
whose search returned a count at least 0 persists the row with that
count and status OK, and a screenshot is taken in a block exactly when
that block persisted a strictly positive count. -/
theorem run_searches_outcome_mapping (env : Person → SearchBehavior)
    (ins : Person → InsBehavior) (q : List Person)
    (hq : q ≠ []) (hins : ∀ p ∈ q, ins p = InsBehavior.ok) :
    (run_ofac_searches true env ins q).1
      = Event.openScraper :: (q.flatMap (okBlock env) ++ [Event.closeDriver])
    ∧ (∀ p, countOf env p = -1 →
        okBlock env p = [Event.searchCall p.idPersona,
          Event.insertCall ⟨p.idPersona, p.nombrePersona, p.pais, none, STATUS_ERROR⟩
            InsBehavior.ok,
          Event.resetForm])
    ∧ (∀ p, 0 ≤ countOf env p →
        okBlock env p = [Event.searchCall p.idPersona,
            Event.insertCall
              ⟨p.idPersona, p.nombrePersona, p.pais, some (countOf env p), STATUS_OK⟩
              InsBehavior.ok]
          ++ (if countOf env p > 0 then [Event.screenshot p.idPersona] else [])
          ++ [Event.resetForm])
    ∧ (∀ p, Event.screenshot p.idPersona ∈ okBlock env p ↔ countOf env p > 0) := by
  have hErr : ∀ p : Person, countOf env p = -1 →
      okBlock env p = [Event.searchCall p.idPersona,
        Event.insertCall ⟨p.idPersona, p.nombrePersona, p.pais, none, STATUS_ERROR⟩
          InsBehavior.ok,
        Event.resetForm] := by
    intro p h
    unfold okBlock
    rw [loop_body_not_raise env (by simp) p, rowOf_of_error h, h,
      if_neg (by omega)]
    rfl
  have hOk : ∀ p : Person, 0 ≤ countOf env p →
      okBlock env p = [Event.searchCall p.idPersona,
          Event.insertCall
            ⟨p.idPersona, p.nombrePersona, p.pais, some (countOf env p), STATUS_OK⟩
            InsBehavior.ok]
        ++ (if countOf env p > 0 then [Event.screenshot p.idPersona] else [])
        ++ [Event.resetForm] := by
    intro p h
    unfold okBlock
    rw [loop_body_not_raise env (by simp) p, rowOf_of_count h]
  refine ⟨?_, hErr, hOk, ?_⟩
  · rw [run_ofac_no_raise env ins q hq (fun p hp => by rw [hins p hp]; simp),
      flatMap_okBlock_of_ok env ins q hins]
  · intro p
    rcases countOf_neg_or_nonneg env p with h | h
    · rw [hErr p h, h]
      simp
    · rw [hOk p h]
      by_cases hr : countOf env p > 0
      · simp [hr]
      · simp [hr]

/-- Witness for C2 at a one-person queue whose search finds 2 matches. -/
theorem run_searches_outcome_mapping_witness :
    (run_ofac_searches true (fun _ => SearchBehavior.results "2 matches found")
        (fun _ => InsBehavior.ok) [⟨3, "Bob", some 3, some "Calle 9", some "Chile"⟩]).1
      = Event.openScraper
        :: (([⟨3, "Bob", some 3, some "Calle 9", some "Chile"⟩] : List Person).flatMap
              (okBlock (fun _ => SearchBehavior.results "2 matches found"))
            ++ [Event.closeDriver]) :=
  (run_searches_outcome_mapping (fun _ => SearchBehavior.results "2 matches found")
    (fun _ => InsBehavior.ok) [⟨3, "Bob", some 3, some "Calle 9", some "Chile"⟩]
    (by decide) (fun p _ => rfl)).1

/-- C5: in a run over a non-empty searchable queue in which the
scraper opens and no insert raises, the form reset is invoked exactly
once per processed record: the trace is the concatenation of the
per-record blocks in input order, the reset count of the whole trace
equals the queue length, and every block consists of the search call
of that record followed by its persistence call and an optional
screenshot, with its single reset event last, hence after the record
outcome is persisted and before the next record search begins; this
holds on the error-sentinel path as well. -/
theorem reset_form_once_per_record (env : Person → SearchBehavior)
    (ins : Person → InsBehavior) (q : List Person) (hq : q ≠ [])
    (h : ∀ p ∈ q, ins p ≠ InsBehavior.raises) :
    ((run_ofac_searches true env ins q).1.count Event.resetForm = q.length)
    ∧ (run_ofac_searches true env ins q).1
        = Event.openScraper
          :: (q.flatMap (fun p => (loop_body env (ins p) p).1) ++ [Event.closeDriver])
    ∧ (∀ p ∈ q, ∃ shots, (loop_body env (ins p) p).1
        = [Event.searchCall p.idPersona, Event.insertCall (rowOf env p) (ins p)]
          ++ shots ++ [Event.resetForm]
        ∧ Event.resetForm ∉ shots
        ∧ (rowOf env p).idPersona = p.idPersona) := by
  rw [run_ofac_no_raise env ins q hq h]
  refine ⟨?_, rfl, ?_⟩
  · simp only [List.count_cons, List.count_append]
    rw [flatMap_blocks_count_reset env ins q h]
    simp
  · intro p hp
    refine ⟨if countOf env p > 0 then [Event.screenshot p.idPersona] else [], ?_, ?_, ?_⟩
    · rw [loop_body_not_raise env (h p hp) p]
    · split <;> simp
    · unfold rowOf
      split <;> rfl

/-- Witness for C5 at a one-person queue whose search fails. -/
theorem reset_form_once_per_record_witness :
    ((run_ofac_searches true
        (fun _ => SearchBehavior.interactionError SearchExn.timeoutOrNotFound)
        (fun _ => InsBehavior.ok)
        [⟨3, "Bob", some 3, some "Calle 9", some "Chile"⟩]).1.count Event.resetForm = 1) :=
  (reset_form_once_per_record
    (fun _ => SearchBehavior.interactionError SearchExn.timeoutOrNotFound)
    (fun _ => InsBehavior.ok) [⟨3, "Bob", some 3, some "Calle 9", some "Chile"⟩]
    (by decide) (fun p _ => by simp)).1

/-- C6: an empty searchable queue returns before the scraper is
constructed, so no session is ever opened; when the queue is not empty
and the scraper construction fails, the search phase produces only the
logged failure, does not retry, and does not raise, and the whole run
still reaches the reporting phase with exactly the pre-check rows
persisted. -/
theorem scraper_lifecycle_guard (env : Person → SearchBehavior)
    (ins : Person → InsBehavior) :
    (∀ sc, run_ofac_searches sc env ins [] = ([], false))
    ∧ (∀ q : List Person, q ≠ [] →
        run_ofac_searches false env ins q = ([Event.scraperInitFailed], false))
    ∧ (∀ rows : List Person, rows ≠ [] →
        Event.reportPhase ∈ main_run (some rows) false true env ins)
    ∧ (∀ rows : List Person, rows ≠ [] →
        persisted_rows (main_run (some rows) false true env ins)
          = pre_check_rows (categorize_persons rows).2.1 (categorize_persons rows).2.2) := by
  have hempty : ∀ sc, run_ofac_searches sc env ins [] = ([], false) := by
    intro sc
    rfl
  have hfail : ∀ q : List Person, q ≠ [] →
      run_ofac_searches false env ins q = ([Event.scraperInitFailed], false) := by
    intro q hq
    obtain ⟨a, t, rfl⟩ := List.exists_cons_of_ne_nil hq
    rfl
  have hsearch : ∀ q : List Person,
      run_ofac_searches false env ins q = ([], false)
      ∨ run_ofac_searches false env ins q = ([Event.scraperInitFailed], false) := by
    intro q
    cases q with
    | nil => exact Or.inl (hempty false)
    | cons a t => exact Or.inr (hfail _ (by simp))
  refine ⟨hempty, hfail, ?_, ?_⟩
  · intro rows hrows
    unfold main_run
    simp only [fetch_persons_to_process]
    rw [if_neg (by simp [hrows])]
    rcases hsearch (categorize_persons rows).1 with hc | hc <;> simp [hc]
  · intro rows hrows
    unfold main_run
    simp only [fetch_persons_to_process]
    rw [if_neg (by simp [hrows])]
    have hemp1 : persisted_rows [] = [] := rfl
    have hemp2 : persisted_rows [Event.scraperInitFailed] = [] := rfl
    have hemp3 : persisted_rows [Event.reportPhase, Event.disconnect] = [] := rfl
    have hemp4 : persisted_rows
        [Event.scraperInitFailed, Event.reportPhase, Event.disconnect] = [] := rfl
    rcases hsearch (categorize_persons rows).1 with hc | hc <;>
      simp [hc, persisted_rows_append, persisted_pre_checks, hemp1, hemp2, hemp3, hemp4]

/-- Witness for C6 at a one-person fetched input whose scraper fails. -/
theorem scraper_lifecycle_guard_witness :
    Event.reportPhase ∈ main_run (some [⟨3, "Bob", some 3, some "Calle 9", some "Chile"⟩])
      false true (fun _ => SearchBehavior.results "0 matches") (fun _ => InsBehavior.ok) :=
  (scraper_lifecycle_guard (fun _ => SearchBehavior.results "0 matches")
    (fun _ => InsBehavior.ok)).2.2.1
    [⟨3, "Bob", some 3, some "Calle 9", some "Chile"⟩] (by decide)

/-- Counterexample to C7 as stated, in its three refuted parts. First,
with one searchable person whose persistence call raises (a rollback
failure inside insert_single_result), the loop body raises,
run_ofac_searches propagates the exception and close is never invoked,
because the source has no try/finally around the per-record loop.
Second, close is not idempotent: close never assigns self.driver, so a
second invocation sees the same truthy attribute and issues the quit
command again instead of being a no-op. Third, close is not
unconditionally safe to call: its body has no try/except, so a raising
quit call propagates out of close. -/
theorem close_skipped_on_raise_cex :
    ((run_ofac_searches true (fun _ => SearchBehavior.results "Found 2 matches")
        (fun _ => InsBehavior.raises)
        [⟨7, "Ana", some 7, some "Calle 9", some "Chile"⟩]).2 = true)
    ∧ Event.closeDriver
        ∉ (run_ofac_searches true (fun _ => SearchBehavior.results "Found 2 matches")
            (fun _ => InsBehavior.raises)
            [⟨7, "Ana", some 7, some "Calle 9", some "Chile"⟩]).1
    ∧ close_close true OpResult.success OpResult.success
        = Except.ok [Event.closeDriver, Event.closeDriver]
    ∧ close true OpResult.failure = Except.error "driver failure" :=
  ⟨by decide, by decide, rfl, rfl⟩

/-- C7 amended: whenever the session opens and every iteration of the
per-record loop returns normally (which holds exactly when no
persistence call raises, since search, screenshot and reset failures
are caught inside the scraper), close is invoked exactly once, as the
final event after the whole loop, and nothing escapes; when an
iteration raises, the exception propagates and close is not invoked,
since the loop has no try/finally. One invocation of close itself
issues exactly one quit and returns normally when the driver attribute
is truthy and quit succeeds, and is a safe no-op when the attribute is
falsy; close is however not idempotent in effect (the attribute is
never cleared, so a second invocation issues quit again, see the
counterexample) and not unconditionally safe (a raising quit
propagates, since close has no exception handler). -/
theorem close_invoked_once_no_raise (env : Person → SearchBehavior)
    (ins : Person → InsBehavior) (q : List Person) (hq : q ≠ [])
    (h : ∀ p ∈ q, ins p ≠ InsBehavior.raises) :
    ((run_ofac_searches true env ins q).1.count Event.closeDriver = 1)
    ∧ (run_ofac_searches true env ins q).2 = false
    ∧ (∃ pre, (run_ofac_searches true env ins q).1 = pre ++ [Event.closeDriver]
        ∧ Event.closeDriver ∉ pre)
    ∧ close true OpResult.success = Except.ok [Event.closeDriver]
    ∧ (∀ o, close false o = Except.ok []) := by
  rw [run_ofac_no_raise env ins q hq h]
  refine ⟨?_, rfl, ?_, rfl, fun o => rfl⟩
  · simp only [List.count_cons, List.count_append]
    rw [List.count_eq_zero.mpr (flatMap_blocks_no_close env ins q)]
    simp
  · refine ⟨Event.openScraper :: q.flatMap (fun p => (loop_body env (ins p) p).1),
      by simp, ?_⟩
    intro hmem
    rcases List.mem_cons.mp hmem with hx | hx
    · cases hx
    · exact flatMap_blocks_no_close env ins q hx

/-- Witness for C7 amended at a one-person queue with a clean insert. -/
theorem close_invoked_once_no_raise_witness :
    ((run_ofac_searches true (fun _ => SearchBehavior.results "0 matches")
        (fun _ => InsBehavior.ok)
        [⟨7, "Ana", some 7, some "Calle 9", some "Chile"⟩]).1.count Event.closeDriver = 1) :=
  (close_invoked_once_no_raise (fun _ => SearchBehavior.results "0 matches")
    (fun _ => InsBehavior.ok) [⟨7, "Ana", some 7, some "Calle 9", some "Chile"⟩]
    (by decide) (fun p _ => by simp)).1

/-- C4: the pre-check resolver builds exactly one row per incomplete
person (null count, status INCOMPLETE, country of that person, even
when null) followed by one row per person without master link (null
count, null country, status NO_MASTER_RECORD), N plus M rows in all;
it issues exactly one bulk write when the batch is not empty and no
write at all when both inputs are empty. -/
theorem pre_checks_resolution (incomplete no_master : List Person) (bulkOk : Bool) :
    (pre_check_rows incomplete no_master).length = incomplete.length + no_master.length
    ∧ (∀ r ∈ pre_check_rows incomplete no_master, r.cantidadDeResultados = none)
    ∧ List.Forall₂
        (fun p r => r = ⟨p.idPersona, p.nombrePersona, p.pais, none, STATUS_INCOMPLETE⟩)
        incomplete ((pre_check_rows incomplete no_master).take incomplete.length)
    ∧ List.Forall₂
        (fun p r => r = ⟨p.idPersona, p.nombrePersona, none, none, STATUS_NO_MASTER_RECORD⟩)
        no_master ((pre_check_rows incomplete no_master).drop incomplete.length)
    ∧ (incomplete = [] → no_master = [] →
        process_pre_checks bulkOk incomplete no_master = [])
    ∧ (incomplete ≠ [] ∨ no_master ≠ [] →
        process_pre_checks bulkOk incomplete no_master
          = [Event.bulkWrite (pre_check_rows incomplete no_master) bulkOk]) := by
  have htake : (pre_check_rows incomplete no_master).take incomplete.length
      = incomplete.map
          (fun p => (⟨p.idPersona, p.nombrePersona, p.pais, none, STATUS_INCOMPLETE⟩ : ResultRow)) := by
    unfold pre_check_rows
    rw [show incomplete.length
        = (incomplete.map (fun p =>
            (⟨p.idPersona, p.nombrePersona, p.pais, none, STATUS_INCOMPLETE⟩ : ResultRow))).length
      from (List.length_map ..).symm]
    exact List.take_left ..
  have hdrop : (pre_check_rows incomplete no_master).drop incomplete.length
      = no_master.map
          (fun p => (⟨p.idPersona, p.nombrePersona, none, none, STATUS_NO_MASTER_RECORD⟩ : ResultRow)) := by
    unfold pre_check_rows
    rw [show incomplete.length
        = (incomplete.map (fun p =>
            (⟨p.idPersona, p.nombrePersona, p.pais, none, STATUS_INCOMPLETE⟩ : ResultRow))).length
      from (List.length_map ..).symm]
    exact List.drop_left ..
  refine ⟨by simp [pre_check_rows], ?_, ?_, ?_, ?_, ?_⟩
  · intro r hr
    unfold pre_check_rows at hr
    rcases List.mem_append.mp hr with hx | hx <;>
      obtain ⟨p, -, rfl⟩ := List.mem_map.mp hx <;> rfl
  · rw [htake]
    exact List.forall₂_map_right_iff.mpr (List.forall₂_same.mpr (fun p _ => rfl))
  · rw [hdrop]
    exact List.forall₂_map_right_iff.mpr (List.forall₂_same.mpr (fun p _ => rfl))
  · intro h1 h2
    subst h1
    subst h2
    rfl
  · intro h
    have hne : pre_check_rows incomplete no_master ≠ [] := by
      intro hx
      have hlen := congrArg List.length hx
      simp [pre_check_rows] at hlen
      rcases h with hy | hy
      · exact hy hlen.1
      · exact hy hlen.2
    have hE : (pre_check_rows incomplete no_master).isEmpty = false := by
      cases hx : (pre_check_rows incomplete no_master).isEmpty
      · rfl
      · exact absurd (List.isEmpty_iff.mp hx) hne
    unfold process_pre_checks insert_results_bulk
    rw [if_neg (by simp [hE]), if_neg (by simp [hE])]

/-- Witness for C4 at one incomplete person and no no-master person. -/
theorem pre_checks_resolution_witness :
    process_pre_checks true [⟨2, "Eva", some 2, some "", some "Chile"⟩] []
      = [Event.bulkWrite (pre_check_rows [⟨2, "Eva", some 2, some "", some "Chile"⟩] []) true] :=
  (pre_checks_resolution [⟨2, "Eva", some 2, some "", some "Chile"⟩] [] true).2.2.2.2.2
    (Or.inl (by decide))

/-- Counterexample to C8 as stated: with one fetched searchable person
and a scraper construction that fails, the search phase is skipped and
zero Result Records are persisted for that person in the whole run,
not exactly one. -/
theorem one_row_per_person_cex :
    (fetch_persons_to_process
        (some [⟨1, "Ana", some 1, some "Calle 9", some "Chile"⟩])).length = 1
    ∧ persisted_rows (main_run (some [⟨1, "Ana", some 1, some "Calle 9", some "Chile"⟩])
        false true (fun _ => SearchBehavior.results "0 matches")
        (fun _ => InsBehavior.ok)) = [] := by
  decide

/-- C8 amended: in a run in which the scraper opens and every
persistence call commits, the rows persisted over the whole run are,
as a multiset, exactly one expected outcome row per fetched person
(status INCOMPLETE, NO_MASTER_RECORD, OK or ERROR according to the
classification and search outcome of that person), each row carrying
the id of its person; hence exactly one Result Record per person; when
the scraper fails to open, the searchable persons instead yield no
Result Record at all. -/
theorem one_row_per_person_amended (rows : List Person)
    (env : Person → SearchBehavior) (ins : Person → InsBehavior)
    (hins : ∀ p, ins p = InsBehavior.ok) :
    List.Perm (persisted_rows (main_run (some rows) true true env ins))
      (rows.map (expected_row env))
    ∧ (persisted_rows (main_run (some rows) true true env ins)).length = rows.length
    ∧ (∀ p ∈ rows, (expected_row env p).idPersona = p.idPersona) := by
  have hid : ∀ p ∈ rows, (expected_row env p).idPersona = p.idPersona :=
    fun p _ => expected_row_idPersona env p
  by_cases hrows : rows = []
  · subst hrows
    exact ⟨List.Perm.refl [], rfl, hid⟩
  · have hmain := persisted_main_ok rows env ins hins hrows
    have hmapc : pre_check_rows (categorize_persons rows).2.1 (categorize_persons rows).2.2
        ++ (categorize_persons rows).1.map (rowOf env)
        = ((categorize_persons rows).2.1 ++ (categorize_persons rows).2.2
            ++ (categorize_persons rows).1).map (expected_row env) := by
      unfold pre_check_rows
      rw [List.map_append, List.map_append]
      congr 1
      · congr 1
        · exact List.map_congr_left
            (fun p hp => (expected_row_of_incomplete (mem_categorize_incomplete hp)).symm)
        · exact List.map_congr_left
            (fun p hp => (expected_row_of_nomaster (mem_categorize_nomaster hp)).symm)
      · exact List.map_congr_left
          (fun p hp => (expected_row_of_searchable (mem_categorize_searchable hp)).symm)
    have hperm : List.Perm ((categorize_persons rows).2.1 ++ (categorize_persons rows).2.2
        ++ (categorize_persons rows).1) rows := by
      have h3 := categorize_append_perm rows
      rw [List.append_assoc] at h3
      exact (List.perm_append_comm).trans h3
    have h1 : List.Perm (persisted_rows (main_run (some rows) true true env ins))
        (rows.map (expected_row env)) := by
      rw [hmain, hmapc]
      exact hperm.map (expected_row env)
    refine ⟨h1, ?_, hid⟩
    rw [h1.length_eq]
    exact List.length_map ..

/-- Witness for C8 amended at a one-person fetched input. -/
theorem one_row_per_person_amended_witness :
    List.Perm (persisted_rows (main_run (some [⟨1, "Ana", none, none, none⟩]) true true
        (fun _ => SearchBehavior.results "0 matches") (fun _ => InsBehavior.ok)))
      ([⟨1, "Ana", none, none, none⟩].map
        (expected_row (fun _ => SearchBehavior.results "0 matches"))) :=
  (one_row_per_person_amended [⟨1, "Ana", none, none, none⟩]
    (fun _ => SearchBehavior.results "0 matches") (fun _ => InsBehavior.ok)
    (fun p => rfl)).1

/-- C10: fetch_persons_to_process returns the empty list on a query
failure after a successful connection instead of raising, and the run
then behaves exactly as on a genuinely empty workload: the whole main
trace is the same as with an empty successful fetch, namely only the
final disconnect, with no pre-check write, no search and no report. -/
theorem fetch_failure_like_empty (sc bk : Bool) (env : Person → SearchBehavior)
    (ins : Person → InsBehavior) :
    fetch_persons_to_process none = []
    ∧ main_run none sc bk env ins = main_run (some []) sc bk env ins
    ∧ main_run none sc bk env ins = [Event.disconnect] :=
  ⟨rfl, rfl, rfl⟩

/-- C9: take_screenshot and reset_search_form return normally for
every behaviour of the underlying driver: a raising driver call is
caught, logged and swallowed, so neither function ever propagates an
exception to the orchestrator. -/
theorem screenshot_and_reset_never_raise (o : OpResult) (pid : Nat) :
    (∃ evs, take_screenshot o pid = Except.ok evs)
    ∧ (∃ evs, reset_search_form o = Except.ok evs)
    ∧ take_screenshot OpResult.failure pid = Except.ok []
    ∧ reset_search_form OpResult.failure = Except.ok [] := by
  cases o with
  | success => exact ⟨⟨[Event.screenshot pid], rfl⟩, ⟨[Event.resetForm], rfl⟩, rfl, rfl⟩
  | failure => exact ⟨⟨[], rfl⟩, ⟨[], rfl⟩, rfl, rfl⟩

